import Mathlib

/-!
Shallow embedding of the TashBoss idle-game economy core, translated from
src/api.py (the FastAPI backend; the authority for all claims) with the
surrounding HTTP glue stripped.

Modelling conventions:
* Python ints are Nat/Int; `balance` is Int because nothing in the code
  prevents it from going negative.
* Timestamps (`time.time()`, `last_collect`) are modelled as integer seconds
  (Int).  Python computes `int(elapsed / cycle_time)` on floats: `int`
  truncates toward zero, which on exact values is `Int.tdiv`.
* `cost = int(base_cost * (level ** 1.5))` is embedded with exact real
  semantics: `int(b * l**1.5) = Nat.sqrt (b^2 * l^3)` for natural b, l.
* `reduction_factor = 1.0 - 0.5 * level / MAX_LEVEL` is the exact rational
  `(2*MAX_LEVEL - level) / (2*MAX_LEVEL)`, so
  `int(base_cycle_time * reduction_factor)` is an exact `Int.tdiv`.
* Firestore is a per-player document store; for a single player it is an
  `Option PlayerState` (absent or present).  `save_player_state` writes
  unconditionally (`doc_ref.set`, last write wins): there is no version
  check, which the concurrency harness below makes explicit.
* `HTTPException` business errors are an `ApiError` result.
-/

namespace TashBoss

/-- One entry of `INDUSTRIES_CONFIG` (the display name is irrelevant to the
economy and omitted). -/
structure SectorConfig where
  base_income : Nat
  base_cost : Nat
  base_cycle_time : Nat
deriving DecidableEq, Repr

/-- The static 10-sector configuration from src/api.py. -/
def INDUSTRIES_CONFIG : List (String × SectorConfig) :=
  [("chorsu_market", ⟨1, 100, 5⟩),
   ("transport", ⟨2, 250, 8⟩),
   ("communal", ⟨3, 500, 10⟩),
   ("tourism", ⟨5, 1000, 12⟩),
   ("ecology", ⟨8, 2500, 15⟩),
   ("infrastructure", ⟨12, 5000, 18⟩),
   ("air_quality", ⟨18, 10000, 22⟩),
   ("international", ⟨25, 20000, 25⟩),
   ("ict", ⟨35, 40000, 30⟩),
   ("innovation", ⟨50, 80000, 35⟩)]

def MAX_LEVEL : Nat := 100

/-- Result record of `get_sector_params`. -/
structure SectorParams where
  income : Nat
  cost : Nat
  cycle_time : Nat
deriving DecidableEq, Repr

/-- `get_sector_params` from src/api.py.  For a missing config or
`level <= 0` it returns the base data (cost 0 / cycle_time 0 when the key is
unknown).  Otherwise income is linear in the level, cost is
`int(base_cost * level ** 1.5)` and the cycle time is
`max(1, int(base_cycle_time * (1 - 0.5 * level / MAX_LEVEL)))`. -/
def get_sector_params (sector_key : String) (level : Nat) : SectorParams :=
  match INDUSTRIES_CONFIG.lookup sector_key with
  | none => { income := 0, cost := 0, cycle_time := 0 }
  | some config =>
    if level = 0 then
      { income := 0, cost := config.base_cost, cycle_time := config.base_cycle_time }
    else
      { income := config.base_income * level,
        cost := Nat.sqrt (config.base_cost * config.base_cost * (level * level * level)),
        cycle_time :=
          (max 1 (Int.tdiv ((config.base_cycle_time : Int) * (2 * (MAX_LEVEL : Int) - (level : Int)))
            (2 * (MAX_LEVEL : Int)))).toNat }

/-- The per-sector slice of the persisted player document:
`{"level": .., "last_collect": .., "current_cycle_time": ..}`. -/
structure SectorState where
  level : Nat
  last_collect : Int
  current_cycle_time : Nat
deriving DecidableEq, Repr

/-- The persisted `PlayerState` document. -/
structure PlayerState where
  user_id : String
  balance : Int
  total_income : Int
  industries : List (String × SectorState)
deriving DecidableEq, Repr

/-- Business (HTTP 400) errors raised by the endpoints. -/
inductive ApiError where
  | invalidSector
  | incomeNotReady
  | insufficientFunds
deriving DecidableEq, Repr

/-- In-place mutation of one sector's dict entry
(`sector_data["..."] = ...` in Python). -/
def updateSector (inds : List (String × SectorState)) (key : String)
    (f : SectorState → SectorState) : List (String × SectorState) :=
  inds.map (fun p => if p.1 = key then (p.1, f p.2) else p)

/-- `get_initial_player_state`: every configured sector starts at level 0
with `last_collect = 0`, then the starter sector `chorsu_market` is set to
level 1 with its level-1 cycle time; balance starts at 1000. -/
def get_initial_player_state (user_id : String) : PlayerState :=
  let initial_industries : List (String × SectorState) :=
    INDUSTRIES_CONFIG.map (fun p => (p.1, ⟨0, 0, p.2.base_cycle_time⟩))
  let starter_params := get_sector_params "chorsu_market" 1
  { user_id := user_id
    balance := 1000
    total_income := 0
    industries := initial_industries.map (fun p =>
      if p.1 = "chorsu_market" then (p.1, ⟨1, p.2.last_collect, starter_params.cycle_time⟩)
      else p) }

/-- `load_player_state` against the per-player document store: an absent
document is created (a write!) from the initial state; an existing document
gets any newly-configured sectors added in memory (not written back).
Returns the loaded state and the store content after the load. -/
def load_player_state (store : Option PlayerState) (user_id : String) :
    PlayerState × Option PlayerState :=
  match store with
  | some s =>
    let missing := (INDUSTRIES_CONFIG.filter (fun p => (s.industries.lookup p.1).isNone)).map
      (fun p => (p.1, (⟨0, 0, p.2.base_cycle_time⟩ : SectorState)))
    ({ s with industries := s.industries ++ missing }, some s)
  | none =>
    let i := get_initial_player_state user_id
    (i, some i)

/-- Core of `collect_income_endpoint`: validate ownership, count the
completed cycles `int((now - last_collect) / cycle_time)`, reject a zero
count, otherwise credit `cycles * income` and reset `last_collect` to now. -/
def collect_income (state : PlayerState) (sector_key : String) (current_time : Int) :
    Except ApiError (PlayerState × Int) :=
  match state.industries.lookup sector_key with
  | none => Except.error ApiError.invalidSector
  | some sector_data =>
    if sector_data.level = 0 then Except.error ApiError.invalidSector
    else
      let params := get_sector_params sector_key sector_data.level
      let elapsed := current_time - sector_data.last_collect
      let cycles_completed := Int.tdiv elapsed (params.cycle_time : Int)
      if cycles_completed = 0 then Except.error ApiError.incomeNotReady
      else
        let collected_income := cycles_completed * (params.income : Int)
        Except.ok
          ({ state with
              balance := state.balance + collected_income,
              industries := updateSector state.industries sector_key
                (fun sec => { sec with last_collect := current_time }) },
           collected_income)

/-- Core of `collect_all_income_endpoint`: walk every sector, collect each
one whose completed-cycle count is strictly positive, and credit the total
(the balance and the store are only touched when the total is positive). -/
def collect_all_income (state : PlayerState) (current_time : Int) : PlayerState × Int :=
  let step := fun (acc : List (String × SectorState) × Int) (p : String × SectorState) =>
    if p.2.level = 0 then (acc.1 ++ [p], acc.2)
    else
      let params := get_sector_params p.1 p.2.level
      let cycles := Int.tdiv (current_time - p.2.last_collect) (params.cycle_time : Int)
      if 0 < cycles then
        (acc.1 ++ [(p.1, { p.2 with last_collect := current_time })],
         acc.2 + cycles * (params.income : Int))
      else (acc.1 ++ [p], acc.2)
  let r := state.industries.foldl step ([], 0)
  if 0 < r.2 then ({ state with balance := state.balance + r.2, industries := r.1 }, r.2)
  else ({ state with industries := r.1 }, r.2)

/-- The cost the upgrade endpoint charges at a given current level:
`get_sector_params(sector_key, current_level + 1)["cost"]`. -/
def nextLevelCost (sector_key : String) (current_level : Nat) : Nat :=
  (get_sector_params sector_key (current_level + 1)).cost

/-- Core of `upgrade_sector_endpoint`: validate the key, charge the
next-level cost against the *unsettled* balance, and on success increment
the level, reset `last_collect` to now and refresh the stored cycle time.
No income settlement happens anywhere on this path. -/
def upgrade_sector (state : PlayerState) (sector_key : String) (current_time : Int) :
    Except ApiError (PlayerState × Nat) :=
  match state.industries.lookup sector_key with
  | none => Except.error ApiError.invalidSector
  | some sector_data =>
    let next_level := sector_data.level + 1
    let params := get_sector_params sector_key next_level
    let cost := params.cost
    if state.balance < (cost : Int) then Except.error ApiError.insufficientFunds
    else
      Except.ok
        ({ state with
            balance := state.balance - (cost : Int),
            industries := updateSector state.industries sector_key
              (fun _ => ⟨next_level, current_time, params.cycle_time⟩) },
         next_level)

/-- `collect_income_endpoint` at the store level: load (creating the state
if absent), run the collect, and save only on success. -/
def collect_income_endpoint (store : Option PlayerState) (user_id sector_key : String)
    (current_time : Int) : Option PlayerState × Except ApiError Int :=
  let r := load_player_state store user_id
  match collect_income r.1 sector_key current_time with
  | Except.ok p => (some p.1, Except.ok p.2)
  | Except.error e => (r.2, Except.error e)

/-- `upgrade_sector_endpoint` at the store level: load (creating the state
if absent), run the upgrade, and save only on success. -/
def upgrade_sector_endpoint (store : Option PlayerState) (user_id sector_key : String)
    (current_time : Int) : Option PlayerState × Except ApiError Nat :=
  let r := load_player_state store user_id
  match upgrade_sector r.1 sector_key current_time with
  | Except.ok p => (some p.1, Except.ok p.2)
  | Except.error e => (r.2, Except.error e)

/-- `collect_all_income_endpoint` at the store level: the updated document
is written only when the collected total is positive. -/
def collect_all_income_endpoint (store : Option PlayerState) (user_id : String)
    (current_time : Int) : Option PlayerState × Int :=
  let r := load_player_state store user_id
  let p := collect_all_income r.1 current_time
  if 0 < p.2 then (some p.1, p.2) else (r.2, p.2)

/-- One upgrade request as it runs against the snapshot it has read: the
state it would save and whether it succeeded (on failure nothing is
written). -/
def upgradeAttempt (s : PlayerState) (sector_key : String) (current_time : Int) :
    PlayerState × Bool :=
  match upgrade_sector s sector_key current_time with
  | Except.ok r => (r.1, true)
  | Except.error _ => (s, false)

/-- Store history of two concurrent upgrade requests that both read the
stored document before either writes.  `save_player_state` is an
unconditional `doc_ref.set` with no version check, so the second save simply
overwrites the first (last write wins).  Returns the final stored state and
the two success flags. -/
def concurrentUpgrades (s0 : PlayerState) (sector_key : String) (current_time : Int) :
    PlayerState × Bool × Bool :=
  let r1 := upgradeAttempt s0 sector_key current_time
  let r2 := upgradeAttempt s0 sector_key current_time
  let afterFirstWrite := if r1.2 then r1.1 else s0
  (if r2.2 then r2.1 else afterFirstWrite, r1.2, r2.2)

/-- One collect request observed at the store level: on the not-ready /
invalid branches nothing is written and nothing is collected. -/
def settleStep (s : PlayerState) (sector_key : String) (t : Int) : PlayerState × Int :=
  match collect_income s sector_key t with
  | Except.ok r => r
  | Except.error _ => (s, 0)

/-- A sequence of collect requests at the given times, accumulating the
total collected amount. -/
def settleFold (sector_key : String) : PlayerState → List Int → PlayerState × Int
  | s, [] => (s, 0)
  | s, t :: ts =>
    let r := settleStep s sector_key t
    let r2 := settleFold sector_key r.1 ts
    (r2.1, r.2 + r2.2)

/-- Pure trace of the (last_collect, total completed cycles) pair under a
sequence of collect calls on one fixed sector: a call with a nonzero
truncated cycle count resets last_collect to the call time and adds the
count; a zero count is the not-ready branch and changes nothing. -/
def cyclesSum (c : Nat) : Int × Int → List Int → Int × Int
  | p, [] => p
  | p, t :: ts =>
    let d := Int.tdiv (t - p.1) (c : Int)
    if d = 0 then cyclesSum c p ts
    else cyclesSum c (t, p.2 + d) ts

/-! ## Concrete states used by counterexamples and witnesses -/

def C1state : PlayerState := ⟨"u", 280, 0, [("chorsu_market", ⟨1, 0, 4⟩)]⟩

def W1state : PlayerState := ⟨"u", 1000, 0, [("chorsu_market", ⟨1, 0, 4⟩)]⟩

def C2state : PlayerState := ⟨"u", 282, 0, [("chorsu_market", ⟨1, 0, 4⟩)]⟩

def W2state : PlayerState := ⟨"u", 300, 0, [("chorsu_market", ⟨1, 0, 4⟩)]⟩

def C3state : PlayerState := ⟨"u", 0, 0, [("chorsu_market", ⟨1, 0, 4⟩)]⟩

def W3state : PlayerState := ⟨"u", 5, 0, [("chorsu_market", ⟨1, 2, 4⟩)]⟩

def C4state : PlayerState := ⟨"u", 1, 0, [("chorsu_market", ⟨1, 10, 4⟩)]⟩

def C5state : PlayerState := ⟨"u", 3, 0, [("chorsu_market", ⟨1, 0, 4⟩)]⟩

def W5state : PlayerState := ⟨"u", 7, 0, [("chorsu_market", ⟨1, 0, 4⟩)]⟩

def W5state1 : PlayerState := ⟨"u", 32, 0, [("chorsu_market", ⟨1, 100, 4⟩)]⟩

def C6state : PlayerState := ⟨"u", 0, 0, [("chorsu_market", ⟨1, 0, 4⟩)]⟩

def W6state : PlayerState := ⟨"u", 0, 0, [("chorsu_market", ⟨1, 1, 4⟩)]⟩

def W7state : PlayerState := ⟨"u", 5, 0, [("chorsu_market", ⟨1, 0, 4⟩)]⟩

/-! ## Helper lemmas -/

/-- Pin down a concrete value of `Nat.sqrt` by squeezing. -/
lemma sqrt_eq_of {a b : Nat} (h1 : b * b ≤ a) (h2 : a < (b + 1) * (b + 1)) :
    Nat.sqrt a = b := by
  have hle : b ≤ Nat.sqrt a := Nat.le_sqrt.mpr h1
  have hlt : Nat.sqrt a < b + 1 := Nat.sqrt_lt.mpr h2
  omega

lemma sqrt_80000 : Nat.sqrt 80000 = 282 := sqrt_eq_of (by norm_num) (by norm_num)

lemma sqrt_270000 : Nat.sqrt 270000 = 519 := sqrt_eq_of (by norm_num) (by norm_num)

/-- A successful association-list lookup exhibits a member. -/
lemma lookup_mem {α β : Type} [BEq α] [LawfulBEq α] {l : List (α × β)} {k : α} {v : β}
    (h : l.lookup k = some v) : (k, v) ∈ l := by
  induction l with
  | nil => simp [List.lookup] at h
  | cons p t ih =>
    rw [show p = (p.1, p.2) from rfl, List.lookup] at h
    by_cases hk : k == p.1
    · simp only [hk, if_pos rfl] at h
      rw [List.mem_cons]
      left
      have : k = p.1 := eq_of_beq hk
      cases h
      rw [this]
    · simp only [hk] at h
      exact List.mem_cons_of_mem _ (ih h)

lemma base_cost_pos {key : String} {cfg : SectorConfig}
    (h : INDUSTRIES_CONFIG.lookup key = some cfg) : 1 ≤ cfg.base_cost := by
  have hmem := lookup_mem h
  have hall : ∀ p ∈ INDUSTRIES_CONFIG, 1 ≤ p.2.base_cost := by decide
  exact hall _ hmem

/-- Updating a key of the industries dict is seen by lookup of that key as a
map over the stored value. -/
lemma lookup_updateSector (inds : List (String × SectorState)) (key : String)
    (f : SectorState → SectorState) :
    (updateSector inds key f).lookup key = (inds.lookup key).map f := by
  induction inds with
  | nil => rfl
  | cons p t ih =>
    rcases p with ⟨k, v⟩
    have hmap : updateSector ((k, v) :: t) key f =
        (if k = key then (k, f v) else (k, v)) :: updateSector t key f := rfl
    rw [hmap]
    by_cases hk : k = key
    · rw [if_pos hk, List.lookup_cons, List.lookup_cons]
      have hb : (key == k) = true := by rw [beq_iff_eq]; exact hk.symm
      rw [hb]
      rfl
    · have hb : (key == k) = false := by
        rw [beq_eq_false_iff_ne]
        exact fun he => hk he.symm
      rw [if_neg hk, List.lookup_cons, List.lookup_cons, hb]
      exact ih

/-- `get_sector_params` unfolded on an owned (level ≥ 1) configured sector. -/
lemma get_sector_params_of_pos {key : String} {cfg : SectorConfig} {level : Nat}
    (h : INDUSTRIES_CONFIG.lookup key = some cfg) (hlev : level ≠ 0) :
    get_sector_params key level =
      { income := cfg.base_income * level,
        cost := Nat.sqrt (cfg.base_cost * cfg.base_cost * (level * level * level)),
        cycle_time :=
          (max 1 (Int.tdiv ((cfg.base_cycle_time : Int) * (2 * (MAX_LEVEL : Int) - (level : Int)))
            (2 * (MAX_LEVEL : Int)))).toNat } := by
  simp only [get_sector_params, h, if_neg hlev]

/-- `nextLevelCost` in closed form for a configured sector. -/
lemma nextLevelCost_eq {key : String} {cfg : SectorConfig}
    (h : INDUSTRIES_CONFIG.lookup key = some cfg) (n : Nat) :
    nextLevelCost key n =
      Nat.sqrt (cfg.base_cost * cfg.base_cost * ((n + 1) * (n + 1) * (n + 1))) := by
  unfold nextLevelCost
  rw [get_sector_params_of_pos h (Nat.succ_ne_zero n)]

lemma nextLevelCost_chorsu_one : nextLevelCost "chorsu_market" 1 = 282 := by
  rw [@nextLevelCost_eq "chorsu_market" ⟨1, 100, 5⟩ (by decide) 1]
  norm_num

lemma nextLevelCost_chorsu_two : nextLevelCost "chorsu_market" 2 = 519 := by
  rw [@nextLevelCost_eq "chorsu_market" ⟨1, 100, 5⟩ (by decide) 2]
  norm_num

/-- The not-ready branch of `collect_income`. -/
lemma collect_income_not_ready {state : PlayerState} {sector_key : String} {sec : SectorState}
    (current_time : Int) (h : state.industries.lookup sector_key = some sec)
    (hlev : sec.level ≠ 0)
    (hd : Int.tdiv (current_time - sec.last_collect)
      ((get_sector_params sector_key sec.level).cycle_time : Int) = 0) :
    collect_income state sector_key current_time = Except.error ApiError.incomeNotReady := by
  simp [collect_income, h, hlev, hd]

/-- The success branch of `collect_income`: credit
`cycles * income` and reset `last_collect` to the call time. -/
lemma collect_income_ok {state : PlayerState} {sector_key : String} {sec : SectorState}
    (current_time : Int) (h : state.industries.lookup sector_key = some sec)
    (hlev : sec.level ≠ 0)
    (hd : Int.tdiv (current_time - sec.last_collect)
      ((get_sector_params sector_key sec.level).cycle_time : Int) ≠ 0) :
    collect_income state sector_key current_time =
      Except.ok
        ({ state with
            balance := state.balance +
              Int.tdiv (current_time - sec.last_collect)
                ((get_sector_params sector_key sec.level).cycle_time : Int) *
                ((get_sector_params sector_key sec.level).income : Int),
            industries := updateSector state.industries sector_key
              (fun s => { s with last_collect := current_time }) },
         Int.tdiv (current_time - sec.last_collect)
           ((get_sector_params sector_key sec.level).cycle_time : Int) *
           ((get_sector_params sector_key sec.level).income : Int)) := by
  simp only [collect_income, h, if_neg hlev, if_neg hd]

/-- The insufficient-funds branch of `upgrade_sector`: the *unsettled*
balance is compared against the next-level cost. -/
lemma upgrade_sector_insufficient {state : PlayerState} {sector_key : String} {sec : SectorState}
    (current_time : Int) (h : state.industries.lookup sector_key = some sec)
    (hlt : state.balance < (nextLevelCost sector_key sec.level : Int)) :
    upgrade_sector state sector_key current_time = Except.error ApiError.insufficientFunds := by
  have hlt2 : state.balance < ((get_sector_params sector_key (sec.level + 1)).cost : Int) := hlt
  simp only [upgrade_sector, h, if_pos hlt2]

/-- The success branch of `upgrade_sector`: cost is deducted from the
unsettled balance, the level incremented, and `last_collect` reset to the
purchase time — the income accrued since the old `last_collect` is
discarded, not settled. -/
lemma upgrade_sector_ok {state : PlayerState} {sector_key : String} {sec : SectorState}
    (current_time : Int) (h : state.industries.lookup sector_key = some sec)
    (hge : (nextLevelCost sector_key sec.level : Int) ≤ state.balance) :
    upgrade_sector state sector_key current_time =
      Except.ok
        ({ state with
            balance := state.balance - (nextLevelCost sector_key sec.level : Int),
            industries := updateSector state.industries sector_key
              (fun _ => ⟨sec.level + 1, current_time,
                (get_sector_params sector_key (sec.level + 1)).cycle_time⟩) },
         sec.level + 1) := by
  have hge2 : ¬ state.balance < ((get_sector_params sector_key (sec.level + 1)).cost : Int) :=
    not_lt.mpr hge
  simp only [upgrade_sector, h, if_neg hge2]
  rfl

/-- Truncating Nat division is superadditive. -/
lemma nat_div_add_le (m n c : Nat) : m / c + n / c ≤ (m + n) / c := by
  rcases Nat.eq_zero_or_pos c with hc | hc
  · subst hc
    simp
  · rw [Nat.le_div_iff_mul_le hc, Nat.add_mul]
    exact Nat.add_le_add (Nat.div_mul_le_self m c) (Nat.div_mul_le_self n c)

/-- `Int.tdiv` is superadditive on nonnegative numerators. -/
lemma tdiv_superadd {a b : Int} (c : Nat) (ha : 0 ≤ a) (hb : 0 ≤ b) :
    Int.tdiv a (c : Int) + Int.tdiv b (c : Int) ≤ Int.tdiv (a + b) (c : Int) := by
  lift a to Nat using ha with m
  lift b to Nat using hb with n
  have e1 : ((m : Int) + (n : Int)) = ((m + n : Nat) : Int) := by push_cast; ring
  rw [e1]
  show ((m / c : Nat) : Int) + ((n / c : Nat) : Int) ≤ (((m + n) / c : Nat) : Int)
  exact_mod_cast nat_div_add_le m n c

/-- The accumulator of `cyclesSum` only shifts the running total. -/
lemma cyclesSum_shift (c : Nat) (ts : List Int) : ∀ (L a : Int),
    (cyclesSum c (L, a) ts).1 = (cyclesSum c (L, 0) ts).1 ∧
    (cyclesSum c (L, a) ts).2 = a + (cyclesSum c (L, 0) ts).2 := by
  induction ts with
  | nil =>
    intro L a
    simp [cyclesSum]
  | cons t ts ih =>
    intro L a
    by_cases hd : Int.tdiv (t - L) (c : Int) = 0
    · simp only [cyclesSum, if_pos hd]
      exact ih L a
    · simp only [cyclesSum, if_neg hd]
      obtain ⟨ha1, ha2⟩ := ih t (a + Int.tdiv (t - L) (c : Int))
      obtain ⟨hz1, hz2⟩ := ih t (0 + Int.tdiv (t - L) (c : Int))
      refine ⟨by rw [ha1, hz1], ?_⟩
      rw [ha2, hz2]
      ring

/-- Main bound: along any nondecreasing sequence of collect times that stay
between the starting `last_collect` and a horizon `T`, the accumulated cycle
count plus what is still collectable at `T` never exceeds the cycle count of
one settlement from the start to `T`. -/
lemma cyclesSum_le (c : Nat) (ts : List Int) : ∀ (L T : Int),
    List.Sorted (· ≤ ·) ts → (∀ t ∈ ts, L ≤ t) → (∀ t ∈ ts, t ≤ T) → L ≤ T →
    L ≤ (cyclesSum c (L, 0) ts).1 ∧ (cyclesSum c (L, 0) ts).1 ≤ T ∧
      (cyclesSum c (L, 0) ts).2 +
        Int.tdiv (T - (cyclesSum c (L, 0) ts).1) (c : Int) ≤ Int.tdiv (T - L) (c : Int) := by
  induction ts with
  | nil =>
    intro L T _ _ _ hLT
    simp [cyclesSum]
    exact hLT
  | cons t ts ih =>
    intro L T hsort hL hT hLT
    obtain ⟨hhead, hsort2⟩ := List.sorted_cons.mp hsort
    have hLt : L ≤ t := hL t (List.mem_cons_self t ts)
    have htT : t ≤ T := hT t (List.mem_cons_self t ts)
    by_cases hd : Int.tdiv (t - L) (c : Int) = 0
    · simp only [cyclesSum, if_pos hd]
      exact ih L T hsort2 (fun x hx => hL x (List.mem_cons_of_mem t hx))
        (fun x hx => hT x (List.mem_cons_of_mem t hx)) hLT
    · simp only [cyclesSum, if_neg hd]
      obtain ⟨hs1, hs2⟩ := cyclesSum_shift c ts t (0 + Int.tdiv (t - L) (c : Int))
      obtain ⟨g1, g2, g3⟩ := ih t T hsort2 hhead
        (fun x hx => hT x (List.mem_cons_of_mem t hx)) htT
      have hsuper : Int.tdiv (t - L) (c : Int) + Int.tdiv (T - t) (c : Int) ≤
          Int.tdiv (T - L) (c : Int) := by
        have := tdiv_superadd c (by omega : (0:Int) ≤ t - L) (by omega : (0:Int) ≤ T - t)
        have harith : (t - L) + (T - t) = T - L := by ring
        rw [harith] at this
        exact this
      refine ⟨?_, ?_, ?_⟩
      · rw [hs1]
        exact le_trans hLt g1
      · rw [hs1]
        exact g2
      · rw [hs1, hs2]
        linarith

/-- One `settleStep` characterised through the sector it touches: the
collected amount is always `tdiv (t - last_collect) cycle_time * income`
(zero on the not-ready branch), and on success `last_collect` moves to the
call time while the level is untouched. -/
lemma settleStep_amount {s : PlayerState} {key : String} {sec : SectorState}
    (t : Int) (h : s.industries.lookup key = some sec) (hlev : sec.level ≠ 0) :
    (settleStep s key t).2 =
      Int.tdiv (t - sec.last_collect) ((get_sector_params key sec.level).cycle_time : Int) *
        ((get_sector_params key sec.level).income : Int) := by
  by_cases hd : Int.tdiv (t - sec.last_collect)
      ((get_sector_params key sec.level).cycle_time : Int) = 0
  · rw [settleStep, collect_income_not_ready t h hlev hd, hd]
    ring
  · rw [settleStep, collect_income_ok t h hlev hd]

/-- `settleFold` through the pure trace `cyclesSum`: for a fixed owned
sector, the total amount collected across a sequence of collect calls is
the traced total cycle count times the per-cycle income, and the stored
sector ends at the traced `last_collect` with its level and stored cycle
time untouched. -/
lemma settleFold_eq (key : String) (ts : List Int) :
    ∀ (s : PlayerState) (sec : SectorState),
      s.industries.lookup key = some sec → sec.level ≠ 0 →
      (settleFold key s ts).2 =
        (cyclesSum ((get_sector_params key sec.level).cycle_time) (sec.last_collect, 0) ts).2 *
          ((get_sector_params key sec.level).income : Int) ∧
      (settleFold key s ts).1.industries.lookup key =
        some ⟨sec.level,
          (cyclesSum ((get_sector_params key sec.level).cycle_time) (sec.last_collect, 0) ts).1,
          sec.current_cycle_time⟩ := by
  induction ts with
  | nil =>
    intro s sec h hlev
    refine ⟨by simp [settleFold, cyclesSum], ?_⟩
    simp only [settleFold, cyclesSum]
    rw [h]
  | cons t ts ih =>
    intro s sec h hlev
    by_cases hd : Int.tdiv (t - sec.last_collect)
        ((get_sector_params key sec.level).cycle_time : Int) = 0
    · have hstep : settleStep s key t = (s, 0) := by
        rw [settleStep, collect_income_not_ready t h hlev hd]
      simp only [settleFold, hstep, cyclesSum, if_pos hd]
      obtain ⟨ih1, ih2⟩ := ih s sec h hlev
      exact ⟨by rw [ih1]; ring, ih2⟩
    · have hstep : settleStep s key t =
          ({ s with
              balance := s.balance +
                Int.tdiv (t - sec.last_collect)
                  ((get_sector_params key sec.level).cycle_time : Int) *
                  ((get_sector_params key sec.level).income : Int),
              industries := updateSector s.industries key
                (fun x => { x with last_collect := t }) },
           Int.tdiv (t - sec.last_collect)
             ((get_sector_params key sec.level).cycle_time : Int) *
             ((get_sector_params key sec.level).income : Int)) := by
        rw [settleStep, collect_income_ok t h hlev hd]
      have hlook2 : ({ s with
          balance := s.balance +
            Int.tdiv (t - sec.last_collect)
              ((get_sector_params key sec.level).cycle_time : Int) *
              ((get_sector_params key sec.level).income : Int),
          industries := updateSector s.industries key
            (fun x => { x with last_collect := t }) } : PlayerState).industries.lookup key =
          some ⟨sec.level, t, sec.current_cycle_time⟩ := by
        show (updateSector s.industries key
          (fun x => { x with last_collect := t })).lookup key = _
        rw [lookup_updateSector, h]
        rfl
      obtain ⟨ih1, ih2⟩ := ih _ ⟨sec.level, t, sec.current_cycle_time⟩ hlook2 hlev
      simp only [settleFold, hstep, cyclesSum, if_neg hd]
      obtain ⟨hs1, hs2⟩ := cyclesSum_shift ((get_sector_params key sec.level).cycle_time) ts t
        (0 + Int.tdiv (t - sec.last_collect) ((get_sector_params key sec.level).cycle_time : Int))
      constructor
      · rw [ih1, hs2]
        ring
      · rw [ih2, hs1]

lemma mem_of_getLast_eq : ∀ {l : List Int} {a : Int}, l.getLast? = some a → a ∈ l
  | [], _, h => by simp at h
  | [x], a, h => by
    rw [List.getLast?_singleton] at h
    rw [Option.some_inj] at h
    rw [h]
    exact List.mem_cons_self a []
  | x :: y :: t, a, h => by
    rw [List.getLast?_cons_cons] at h
    exact List.mem_cons_of_mem x (mem_of_getLast_eq h)

lemma sorted_le_getLast : ∀ {l : List Int} {a : Int},
    List.Sorted (· ≤ ·) l → l.getLast? = some a → ∀ t ∈ l, t ≤ a
  | [], _, _, h => by simp at h
  | [x], a, _, h => by
    rw [List.getLast?_singleton, Option.some_inj] at h
    intro t ht
    rw [List.mem_singleton] at ht
    rw [ht, ← h]
  | x :: y :: l, a, hs, h => by
    rw [List.getLast?_cons_cons] at h
    obtain ⟨hhead, hs2⟩ := List.sorted_cons.mp hs
    intro t ht
    rcases List.mem_cons.mp ht with rfl | ht2
    · exact le_trans (hhead _ (mem_of_getLast_eq h)) (le_refl a)
    · exact sorted_le_getLast hs2 h t ht2

/-- Strict monotonicity of `k ↦ Nat.sqrt (b² k³)` for positive `b`, the
mathematical core of the cost curve `int(base_cost * level ** 1.5)`. -/
lemma sqrt_cost_strict (b k : Nat) (hb : 1 ≤ b) (hk : 1 ≤ k) :
    Nat.sqrt (b * b * (k * k * k)) < Nat.sqrt (b * b * ((k + 1) * (k + 1) * (k + 1))) := by
  have hs2 : Nat.sqrt (b * b * (k * k * k)) * Nat.sqrt (b * b * (k * k * k)) ≤
      b * b * (k * k * k) := Nat.sqrt_le _
  have hsb : Nat.sqrt (b * b * (k * k * k)) ≤ b * (k * k) := by
    have h1 : b * b * (k * k * k) ≤ (b * (k * k)) * (b * (k * k)) := by nlinarith
    calc Nat.sqrt (b * b * (k * k * k)) ≤ Nat.sqrt ((b * (k * k)) * (b * (k * k))) :=
          Nat.sqrt_le_sqrt h1
      _ = b * (k * k) := Nat.sqrt_eq _
  have hkey : (Nat.sqrt (b * b * (k * k * k)) + 1) * (Nat.sqrt (b * b * (k * k * k)) + 1) ≤
      b * b * ((k + 1) * (k + 1) * (k + 1)) := by nlinarith
  have hstep := Nat.le_sqrt.mpr hkey
  omega

/-- The store content after loading an existing player is the stored state
itself (the in-memory enrichment with missing sectors is not written back). -/
lemma load_some_store (s : PlayerState) (uid : String) :
    (load_player_state (some s) uid).2 = some s := rfl

/-- A domain error from the upgrade endpoint leaves the store at whatever
the load step left it. -/
lemma upgrade_endpoint_error {store : Option PlayerState} {uid key : String} {now : Int}
    {e : ApiError}
    (he : (upgrade_sector_endpoint store uid key now).2 = Except.error e) :
    (upgrade_sector_endpoint store uid key now).1 = (load_player_state store uid).2 := by
  simp only [upgrade_sector_endpoint] at he ⊢
  cases hu : upgrade_sector (load_player_state store uid).1 key now with
  | ok r =>
    rw [hu] at he
    simp at he
  | error e0 =>
    rfl

/-- A domain error from the collect endpoint leaves the store at whatever
the load step left it. -/
lemma collect_endpoint_error {store : Option PlayerState} {uid key : String} {now : Int}
    {e : ApiError}
    (he : (collect_income_endpoint store uid key now).2 = Except.error e) :
    (collect_income_endpoint store uid key now).1 = (load_player_state store uid).2 := by
  simp only [collect_income_endpoint] at he ⊢
  cases hu : collect_income (load_player_state store uid).1 key now with
  | ok r =>
    rw [hu] at he
    simp at he
  | error e0 =>
    rfl

/-! ## Claims -/

/-- C9: for every sector id in the static configuration and every integer
n ≥ 0, the cost of reaching the next level is strictly greater at the higher
level: nextLevelCost(id, n+1) > nextLevelCost(id, n). -/
theorem C9_nextLevelCost_strict_mono (key : String) (cfg : SectorConfig)
    (h : INDUSTRIES_CONFIG.lookup key = some cfg) (n : Nat) :
    nextLevelCost key n < nextLevelCost key (n + 1) := by
  rw [nextLevelCost_eq h, nextLevelCost_eq h]
  exact sqrt_cost_strict cfg.base_cost (n + 1) (base_cost_pos h) (Nat.succ_pos n)

/-- C9 witness: the cost curve is strictly increasing at chorsu_market from
level 0 to level 1. -/
theorem C9_witness :
    INDUSTRIES_CONFIG.lookup "chorsu_market" = some ⟨1, 100, 5⟩ ∧
    nextLevelCost "chorsu_market" 0 < nextLevelCost "chorsu_market" 1 :=
  ⟨by decide, C9_nextLevelCost_strict_mono "chorsu_market" ⟨1, 100, 5⟩ (by decide) 0⟩

/-- C10: for every configured sector key and level ≥ 1, the computed cycle
time is at least 1 second (the `max(1, ...)` clamp), so the divisions by
cycle time in the collect endpoints never divide by zero for an owned
configured sector. -/
theorem C10_cycle_time_pos (key : String) (cfg : SectorConfig) (level : Nat)
    (h : INDUSTRIES_CONFIG.lookup key = some cfg) (hlev : 1 ≤ level) :
    1 ≤ (get_sector_params key level).cycle_time := by
  rw [get_sector_params_of_pos h (by omega)]
  show 1 ≤ (max 1 (Int.tdiv ((cfg.base_cycle_time : Int) *
    (2 * (MAX_LEVEL : Int) - (level : Int))) (2 * (MAX_LEVEL : Int)))).toNat
  have h1 : (1 : Int) ≤ max 1 (Int.tdiv ((cfg.base_cycle_time : Int) *
      (2 * (MAX_LEVEL : Int) - (level : Int))) (2 * (MAX_LEVEL : Int))) := le_max_left _ _
  omega

/-- C10 witness: the level-1 cycle time of chorsu_market is positive. -/
theorem C10_witness :
    INDUSTRIES_CONFIG.lookup "chorsu_market" = some ⟨1, 100, 5⟩ ∧
    1 ≤ (get_sector_params "chorsu_market" 1).cycle_time :=
  ⟨by decide, C10_cycle_time_pos "chorsu_market" ⟨1, 100, 5⟩ 1 (by decide) (le_refl 1)⟩

/-- C8 counterexample: the ledger created on first load does not have every
sector at level 0 — the starter sector chorsu_market is created at level 1
(and its last_collect is 0, not the creation time). -/
theorem C8_claim_false :
    ((get_initial_player_state "u").industries.lookup "chorsu_market").map
      (fun x => x.level) = some 1 ∧ (1 : Nat) ≠ 0 :=
  ⟨by decide, by decide⟩

/-- C8 (amended): the created ledger has balance 1000, the starter sector
chorsu_market at level 1 with its level-1 cycle time 4, every other sector
at level 0, and every sector's last_collect equal to 0 (a sentinel, not the
creation time). -/
theorem C8_initial_state (user_id : String) :
    (get_initial_player_state user_id).balance = 1000 ∧
    (get_initial_player_state user_id).industries.lookup "chorsu_market" = some ⟨1, 0, 4⟩ ∧
    ∀ p ∈ (get_initial_player_state user_id).industries,
      p.2.last_collect = 0 ∧ (p.1 = "chorsu_market" ∨ p.2.level = 0) := by
  have hind : (get_initial_player_state user_id).industries =
      (get_initial_player_state "u").industries := rfl
  refine ⟨rfl, ?_, ?_⟩
  · rw [hind]
    decide
  · rw [hind]
    decide

/-- C1 counterexample: at C1state (balance 280, chorsu_market at level 1,
last_collect 0) at time 100 the accrued income is 25, so the settled balance
305 covers the next-level cost 282 — yet upgrade_sector fails with
InsufficientFunds: the purchase settles nothing first. -/
theorem C1_claim_false :
    upgrade_sector C1state "chorsu_market" 100 = Except.error ApiError.insufficientFunds ∧
    (collect_income C1state "chorsu_market" 100).map (fun r => r.2) = Except.ok 25 ∧
    nextLevelCost "chorsu_market" 1 = 282 ∧
    ¬ (C1state.balance + 25 < (282 : Int)) := by
  refine ⟨?_, rfl, nextLevelCost_chorsu_one, by decide⟩
  have h : C1state.industries.lookup "chorsu_market" = some ⟨1, 0, 4⟩ := by decide
  apply upgrade_sector_insufficient 100 h
  show C1state.balance < ((nextLevelCost "chorsu_market" 1 : Nat) : Int)
  rw [nextLevelCost_chorsu_one]
  decide

/-- C1 (amended): the buy/upgrade operation performs no settlement: the
next-level cost is compared against (and deducted from) the stored,
unsettled balance, it fails with InsufficientFunds exactly when that
unsettled balance is below the cost, and on success the committed ledger has
balance = unsettledBalance - cost, the level incremented by 1, and
last_collect reset to now — so the income accrued since the previous
last_collect is discarded by the purchase. -/
theorem C1_upgrade_unsettled (s : PlayerState) (key : String) (sec : SectorState) (now : Int)
    (h : s.industries.lookup key = some sec) :
    (s.balance < (nextLevelCost key sec.level : Int) →
      upgrade_sector s key now = Except.error ApiError.insufficientFunds) ∧
    ((nextLevelCost key sec.level : Int) ≤ s.balance →
      upgrade_sector s key now =
        Except.ok
          ({ s with
              balance := s.balance - (nextLevelCost key sec.level : Int),
              industries := updateSector s.industries key
                (fun _ => ⟨sec.level + 1, now,
                  (get_sector_params key (sec.level + 1)).cycle_time⟩) },
           sec.level + 1)) :=
  ⟨fun hlt => upgrade_sector_insufficient now h hlt,
   fun hge => upgrade_sector_ok now h hge⟩

/-- C1 witness: at W1state (balance 1000) the upgrade succeeds and commits
exactly balance - cost with the level bumped and last_collect reset. -/
theorem C1_witness :
    W1state.industries.lookup "chorsu_market" = some ⟨1, 0, 4⟩ ∧
    upgrade_sector W1state "chorsu_market" 50 =
      Except.ok
        ({ W1state with
            balance := W1state.balance - (nextLevelCost "chorsu_market" 1 : Int),
            industries := updateSector W1state.industries "chorsu_market"
              (fun _ => ⟨2, 50, (get_sector_params "chorsu_market" 2).cycle_time⟩) },
         2) := by
  have h : W1state.industries.lookup "chorsu_market" = some ⟨1, 0, 4⟩ := by decide
  refine ⟨h, ?_⟩
  exact (C1_upgrade_unsettled W1state "chorsu_market" ⟨1, 0, 4⟩ 50 h).2
    (by show ((nextLevelCost "chorsu_market" 1 : Nat) : Int) ≤ W1state.balance
        rw [nextLevelCost_chorsu_one]
        decide)

/-- When one attempt against a snapshot succeeds, the both-read-first
interleaving commits that attempt's write twice over and reports two
successes. -/
lemma concurrentUpgrades_both {s0 : PlayerState} {key : String} {now : Int} {S1 : PlayerState}
    (h1 : upgradeAttempt s0 key now = (S1, true)) :
    concurrentUpgrades s0 key now = (S1, true, true) := by
  unfold concurrentUpgrades
  rw [h1]
  rfl

/-- C2 counterexample: two concurrent buy requests that both read C2state
(balance 282, which affords exactly one purchase at cost 282; a second
sequential purchase would need 519 more) BOTH succeed, because
save_player_state writes unconditionally with no version check. -/
theorem C2_claim_false :
    (concurrentUpgrades C2state "chorsu_market" 0).2.1 = true ∧
    (concurrentUpgrades C2state "chorsu_market" 0).2.2 = true ∧
    nextLevelCost "chorsu_market" 1 = 282 ∧
    nextLevelCost "chorsu_market" 2 = 519 ∧
    C2state.balance < 282 + 519 := by
  have h : C2state.industries.lookup "chorsu_market" = some ⟨1, 0, 4⟩ := by decide
  have hge : ((nextLevelCost "chorsu_market" 1 : Nat) : Int) ≤ C2state.balance := by
    rw [nextLevelCost_chorsu_one]
    decide
  have hok := upgrade_sector_ok 0 h hge
  have hatt : upgradeAttempt C2state "chorsu_market" 0 =
      ({ C2state with
          balance := C2state.balance - (nextLevelCost "chorsu_market" 1 : Int),
          industries := updateSector C2state.industries "chorsu_market"
            (fun _ => ⟨2, 0, (get_sector_params "chorsu_market" 2).cycle_time⟩) }, true) := by
    rw [upgradeAttempt, hok]
  have hcu := concurrentUpgrades_both hatt
  refine ⟨?_, ?_, nextLevelCost_chorsu_one, nextLevelCost_chorsu_two, by decide⟩
  · rw [hcu]
  · rw [hcu]

/-- C2 (amended): because the save has no compare-and-set, two concurrent
buySector requests that both read the same stored state BOTH succeed
whenever that single read balance covers the cost; the final committed state
keeps only the last write (the other update is lost), its balance is the
read balance minus one cost, and it is still nonnegative. -/
theorem C2_lost_update (s0 : PlayerState) (key : String) (sec : SectorState) (now : Int)
    (h : s0.industries.lookup key = some sec)
    (hge : (nextLevelCost key sec.level : Int) ≤ s0.balance) :
    (concurrentUpgrades s0 key now).2.1 = true ∧
    (concurrentUpgrades s0 key now).2.2 = true ∧
    (concurrentUpgrades s0 key now).1.balance =
      s0.balance - (nextLevelCost key sec.level : Int) ∧
    0 ≤ (concurrentUpgrades s0 key now).1.balance := by
  have hok := upgrade_sector_ok now h hge
  have hatt : upgradeAttempt s0 key now =
      ({ s0 with
          balance := s0.balance - (nextLevelCost key sec.level : Int),
          industries := updateSector s0.industries key
            (fun _ => ⟨sec.level + 1, now,
              (get_sector_params key (sec.level + 1)).cycle_time⟩) }, true) := by
    rw [upgradeAttempt, hok]
  have hcu := concurrentUpgrades_both hatt
  have hbal : (concurrentUpgrades s0 key now).1.balance =
      s0.balance - (nextLevelCost key sec.level : Int) := by
    rw [hcu]
  refine ⟨by rw [hcu], by rw [hcu], hbal, ?_⟩
  rw [hbal]
  omega

/-- C2 witness: at W2state (balance 300 ≥ cost 282) both concurrent
requests succeed and the final committed balance is 300 - 282 ≥ 0. -/
theorem C2_witness :
    W2state.industries.lookup "chorsu_market" = some ⟨1, 0, 4⟩ ∧
    (concurrentUpgrades W2state "chorsu_market" 5).2.1 = true ∧
    (concurrentUpgrades W2state "chorsu_market" 5).2.2 = true ∧
    (concurrentUpgrades W2state "chorsu_market" 5).1.balance =
      W2state.balance - (nextLevelCost "chorsu_market" 1 : Int) := by
  have h : W2state.industries.lookup "chorsu_market" = some ⟨1, 0, 4⟩ := by decide
  have hge : ((nextLevelCost "chorsu_market" 1 : Nat) : Int) ≤ W2state.balance := by
    rw [nextLevelCost_chorsu_one]
    decide
  obtain ⟨w1, w2, w3, _⟩ := C2_lost_update W2state "chorsu_market" ⟨1, 0, 4⟩ 5 h hge
  exact ⟨h, w1, w2, w3⟩

/-- C3 counterexample: with last_collect 30 days (2,592,000 s) in the past,
collect_income credits the full 30-day accrual 648000, strictly more than
the 7-day-window amount 151200 = income * tdiv 604800 cycle_time: the
elapsed duration is not capped by any offline window. -/
theorem C3_claim_false :
    (collect_income C3state "chorsu_market" 2592000).map (fun r => r.2) =
      Except.ok 648000 ∧
    (1 : Int) * Int.tdiv 604800 4 = 151200 ∧
    (151200 : Int) < 648000 :=
  ⟨rfl, by decide, by decide⟩

/-- C3 (amended): the accrual computation applies no offline cap and no
negative clamp: whenever the truncated cycle count is nonzero, the collected
amount is exactly tdiv (now - last_collect) cycle_time * income — growing
without bound as last_collect recedes into the past, and negative when
last_collect lies more than one cycle in the future of now. -/
theorem C3_no_cap_no_clamp (s : PlayerState) (key : String) (sec : SectorState) (now : Int)
    (h : s.industries.lookup key = some sec) (hlev : sec.level ≠ 0)
    (hd : Int.tdiv (now - sec.last_collect)
      ((get_sector_params key sec.level).cycle_time : Int) ≠ 0) :
    (collect_income s key now).map (fun r => r.2) =
      Except.ok (Int.tdiv (now - sec.last_collect)
        ((get_sector_params key sec.level).cycle_time : Int) *
        ((get_sector_params key sec.level).income : Int)) := by
  rw [collect_income_ok now h hlev hd]
  rfl

/-- C3 witness: at W3state with now = 10 the collected amount is exactly
the uncapped tdiv (10 - 2) 4 * 1 = 2. -/
theorem C3_witness :
    W3state.industries.lookup "chorsu_market" = some ⟨1, 2, 4⟩ ∧
    Int.tdiv ((10 : Int) - 2) ((get_sector_params "chorsu_market" 1).cycle_time : Int) ≠ 0 ∧
    (collect_income W3state "chorsu_market" 10).map (fun r => r.2) =
      Except.ok (Int.tdiv ((10 : Int) - 2)
        ((get_sector_params "chorsu_market" 1).cycle_time : Int) *
        ((get_sector_params "chorsu_market" 1).income : Int)) :=
  ⟨by decide, by decide,
   C3_no_cap_no_clamp W3state "chorsu_market" ⟨1, 2, 4⟩ 10 (by decide) (by decide) (by decide)⟩

/-- C4: with a stored last_collect of 10 and now = 0 (clock earlier than the
stored timestamp), the truncated cycle count is tdiv (-10) 4 = -2, which
passes the `cycles == 0` guard, so collect_income commits balance
1 + (-2) * 1 = -1 < 0: the nonnegative-balance invariant is violated and the
negative state is what the endpoint persists. -/
theorem C4_negative_balance_committed :
    collect_income C4state "chorsu_market" 0 =
      Except.ok (⟨"u", -1, 0, [("chorsu_market", ⟨1, 0, 4⟩)]⟩, -2) ∧
    ((-1 : Int) < 0) ∧
    (collect_income_endpoint (some C4state) "u" "chorsu_market" 0).1.map
      (fun s => s.balance) = some (-1) :=
  ⟨rfl, by decide, rfl⟩

/-- C5 counterexample: a first collect at time 100 succeeds (collects 25 and
sets last_collect to 100); a second collect at the same time 100 does not
yield a collected amount of 0 — it fails with the income-not-ready error. -/
theorem C5_claim_false :
    collect_income C5state "chorsu_market" 100 =
      Except.ok (⟨"u", 28, 0, [("chorsu_market", ⟨1, 100, 4⟩)]⟩, 25) ∧
    collect_income ⟨"u", 28, 0, [("chorsu_market", ⟨1, 100, 4⟩)]⟩ "chorsu_market" 100 =
      Except.error ApiError.incomeNotReady ∧
    Except.error ApiError.incomeNotReady ≠
      (Except.ok (⟨"u", 28, 0, [("chorsu_market", ⟨1, 100, 4⟩)]⟩, 0) :
        Except ApiError (PlayerState × Int)) :=
  ⟨rfl, rfl, fun hcon => Except.noConfusion hcon⟩

/-- C5 (amended): calling collect_income twice with now unchanged makes the
second call fail with the income-not-ready error (HTTP 400) instead of
returning a collected amount of 0; since the error branch performs no write,
the persisted state and balance are unchanged by the second call. -/
theorem C5_second_collect_errors (s : PlayerState) (key : String) (now : Int)
    (s1 : PlayerState) (a : Int)
    (h : collect_income s key now = Except.ok (s1, a)) :
    collect_income s1 key now = Except.error ApiError.incomeNotReady := by
  rcases hcase : s.industries.lookup key with _ | sec
  · have hbad : collect_income s key now = Except.error ApiError.invalidSector := by
      simp [collect_income, hcase]
    rw [hbad] at h
    cases h
  · by_cases hz : sec.level = 0
    · have hbad : collect_income s key now = Except.error ApiError.invalidSector := by
        simp [collect_income, hcase, hz]
      rw [hbad] at h
      cases h
    · by_cases hd : Int.tdiv (now - sec.last_collect)
          ((get_sector_params key sec.level).cycle_time : Int) = 0
      · rw [collect_income_not_ready now hcase hz hd] at h
        cases h
      · rw [collect_income_ok now hcase hz hd] at h
        rw [Except.ok.injEq, Prod.mk.injEq] at h
        obtain ⟨h1, h2⟩ := h
        have hlook : s1.industries.lookup key =
            some ⟨sec.level, now, sec.current_cycle_time⟩ := by
          rw [← h1]
          show (updateSector s.industries key
            (fun x => { x with last_collect := now })).lookup key = _
          rw [lookup_updateSector, hcase]
          rfl
        apply collect_income_not_ready now hlook hz
        simp

/-- C5 witness: a concrete successful collect followed by an immediate
retry at the same time, which errors. -/
theorem C5_witness :
    collect_income W5state "chorsu_market" 100 = Except.ok (W5state1, 25) ∧
    collect_income W5state1 "chorsu_market" 100 = Except.error ApiError.incomeNotReady :=
  ⟨rfl, C5_second_collect_errors W5state "chorsu_market" 100 W5state1 25 rfl⟩

/-- C6 counterexample: with cycle time 4 and income 1 per cycle, collecting
at t = 7 and then t = 14 yields 1 + 1 = 2, but a single settlement of the
whole interval at t = 14 yields tdiv 14 4 = 3: splitting the settlement
loses the partial-cycle remainder at each reset of last_collect. -/
theorem C6_claim_false :
    (settleFold "chorsu_market" C6state [7, 14]).2 = 2 ∧
    (settleStep C6state "chorsu_market" 14).2 = 3 ∧
    ((2 : Int) ≠ 3) :=
  ⟨rfl, rfl, by decide⟩

/-- C6 (amended): splitting a settlement never gains income but can lose
it: for a fixed owned configured sector and any nondecreasing sequence of
collect times starting at or after last_collect, the total collected across
the sequence is at most (not equal to) what one settlement at the final
time collects. -/
theorem C6_split_le_single (s : PlayerState) (key : String) (sec : SectorState)
    (ts : List Int) (tn : Int)
    (h : s.industries.lookup key = some sec) (hlev : sec.level ≠ 0)
    (hsort : List.Sorted (· ≤ ·) ts) (hstart : ∀ t ∈ ts, sec.last_collect ≤ t)
    (hlast : ts.getLast? = some tn) :
    (settleFold key s ts).2 ≤ (settleStep s key tn).2 := by
  have htm : tn ∈ ts := mem_of_getLast_eq hlast
  have hLtn : sec.last_collect ≤ tn := hstart tn htm
  have hmax : ∀ t ∈ ts, t ≤ tn := sorted_le_getLast hsort hlast
  obtain ⟨hfold, _⟩ := settleFold_eq key ts s sec h hlev
  obtain ⟨g1, g2, g3⟩ := cyclesSum_le ((get_sector_params key sec.level).cycle_time) ts
    sec.last_collect tn hsort hstart hmax hLtn
  have hnn : 0 ≤ Int.tdiv
      (tn - (cyclesSum ((get_sector_params key sec.level).cycle_time)
        (sec.last_collect, 0) ts).1)
      (((get_sector_params key sec.level).cycle_time : Nat) : Int) :=
    Int.tdiv_nonneg (by omega) (Int.ofNat_nonneg _)
  have hsum : (cyclesSum ((get_sector_params key sec.level).cycle_time)
      (sec.last_collect, 0) ts).2 ≤
      Int.tdiv (tn - sec.last_collect)
        (((get_sector_params key sec.level).cycle_time : Nat) : Int) := by
    linarith
  rw [hfold, settleStep_amount tn h hlev]
  exact mul_le_mul_of_nonneg_right hsum (Int.ofNat_nonneg _)

/-- C6 witness: a concrete two-step split collects at most what the single
settlement at the final time collects. -/
theorem C6_witness :
    W6state.industries.lookup "chorsu_market" = some ⟨1, 1, 4⟩ ∧
    List.Sorted (· ≤ ·) ([7, 14] : List Int) ∧
    (settleFold "chorsu_market" W6state [7, 14]).2 ≤
      (settleStep W6state "chorsu_market" 14).2 :=
  ⟨by decide, by decide,
   C6_split_le_single W6state "chorsu_market" ⟨1, 1, 4⟩ [7, 14] 14 (by decide) (by decide)
     (by decide) (by decide) rfl⟩

/-- C7 counterexample: for a previously-unknown player even a request that
fails with a domain error performs a write — the load step creates and
persists the initial player document before the InvalidSector error is
raised, so the store is no longer empty afterwards. -/
theorem C7_claim_false :
    (upgrade_sector_endpoint none "u" "bogus" 0).2 = Except.error ApiError.invalidSector ∧
    (upgrade_sector_endpoint none "u" "bogus" 0).1 ≠ none :=
  ⟨rfl, by decide⟩

/-- C7 (amended): for a player whose document already exists in the store,
any domain error from the upgrade or collect endpoint performs no write: the
persisted state afterwards is exactly the prior one.  (For a
previously-unknown player, the load step itself first persists the freshly
created initial state, and that creation write remains.) -/
theorem C7_no_write_on_domain_error (s : PlayerState) (uid key : String) (now : Int)
    (e1 e2 : ApiError)
    (h1 : (upgrade_sector_endpoint (some s) uid key now).2 = Except.error e1)
    (h2 : (collect_income_endpoint (some s) uid key now).2 = Except.error e2) :
    (upgrade_sector_endpoint (some s) uid key now).1 = some s ∧
    (collect_income_endpoint (some s) uid key now).1 = some s :=
  ⟨(upgrade_endpoint_error h1).trans (load_some_store s uid),
   (collect_endpoint_error h2).trans (load_some_store s uid)⟩

/-- C7 witness: a request for a nonexistent sector key on an existing
player errors on both endpoints and leaves the stored state untouched. -/
theorem C7_witness :
    (upgrade_sector_endpoint (some W7state) "u" "nope" 3).2 =
      Except.error ApiError.invalidSector ∧
    (collect_income_endpoint (some W7state) "u" "nope" 3).2 =
      Except.error ApiError.invalidSector ∧
    (upgrade_sector_endpoint (some W7state) "u" "nope" 3).1 = some W7state ∧
    (collect_income_endpoint (some W7state) "u" "nope" 3).1 = some W7state := by
  have hw := C7_no_write_on_domain_error W7state "u" "nope" 3
    ApiError.invalidSector ApiError.invalidSector rfl rfl
  exact ⟨rfl, rfl, hw.1, hw.2⟩

end TashBoss
